import Mathlib

set_option autoImplicit false

/-!
Shallow embedding of the resolvedb-go client library and proofs about it.

Bytes are modelled as natural numbers below 256, Go byte slices as lists of
naturals, and Go strings either as Lean strings or, for character-level
code, as lists of characters.  All definitions are translated from the Go
source; the few places where a spec-side quantity is needed for comparison
are marked as such in their doc comments.
-/

namespace ResolveDB

/-- Go strings.ToLower, modelled on the ASCII range: the characters A-Z map
to their lowercase forms and every other character is kept.  Go applies the
Unicode simple case mapping; every property stated below only inspects the
ASCII range of the result, so the restriction is immaterial to them. -/
def goToLower (c : Char) : Char :=
  if 'A' ≤ c ∧ c ≤ 'Z' then Char.ofNat (c.toNat + 32) else c

/-- The lowercase hexadecimal digit for a value below 16 (Go encoding/hex). -/
def hexDigit (n : Nat) : Char :=
  if n < 10 then Char.ofNat (48 + n) else Char.ofNat (87 + n)

/-- The value of one hexadecimal digit character; Go encoding/hex accepts
0-9, a-f and A-F. -/
def hexDigitVal (c : Char) : Option Nat :=
  if '0' ≤ c ∧ c ≤ '9' then some (c.toNat - 48)
  else if 'a' ≤ c ∧ c ≤ 'f' then some (c.toNat - 87)
  else if 'A' ≤ c ∧ c ≤ 'F' then some (c.toNat - 55)
  else none

/-- Go hex.EncodeToString: two lowercase hexadecimal digits per byte. -/
def hexEncode : List Nat → List Char
  | [] => []
  | b :: rest => hexDigit (b / 16) :: hexDigit (b % 16) :: hexEncode rest

/-- Go hex.DecodeString: pairs of hexadecimal digits; an odd length or an
invalid digit is an error. -/
def hexDecode : List Char → Option (List Nat)
  | [] => some []
  | [_] => none
  | c0 :: c1 :: rest =>
    match hexDigitVal c0, hexDigitVal c1, hexDecode rest with
    | some h, some l, some bs => some ((h * 16 + l) :: bs)
    | _, _, _ => none

/-- The URL-safe base64 alphabet (Go base64.RawURLEncoding / URLEncoding). -/
def b64Char (n : Nat) : Char :=
  if n < 26 then Char.ofNat (65 + n)
  else if n < 52 then Char.ofNat (97 + (n - 26))
  else if n < 62 then Char.ofNat (48 + (n - 52))
  else if n = 62 then '-'
  else '_'

/-- The six-bit value of a URL-safe base64 alphabet character. -/
def b64Val (c : Char) : Option Nat :=
  if 'A' ≤ c ∧ c ≤ 'Z' then some (c.toNat - 65)
  else if 'a' ≤ c ∧ c ≤ 'z' then some (c.toNat - 97 + 26)
  else if '0' ≤ c ∧ c ≤ '9' then some (c.toNat - 48 + 52)
  else if c = '-' then some 62
  else if c = '_' then some 63
  else none

/-- Go base64.RawURLEncoding.EncodeToString: URL-safe alphabet, no padding.
Each group of three bytes yields four characters; a final group of one or
two bytes yields two or three characters. -/
def b64Encode : List Nat → List Char
  | [] => []
  | [b0] => [b64Char (b0 / 4), b64Char (b0 % 4 * 16)]
  | [b0, b1] => [b64Char (b0 / 4), b64Char (b0 % 4 * 16 + b1 / 16), b64Char (b1 % 16 * 4)]
  | b0 :: b1 :: b2 :: rest =>
    b64Char (b0 / 4) :: b64Char (b0 % 4 * 16 + b1 / 16) ::
      b64Char (b1 % 16 * 4 + b2 / 64) :: b64Char (b2 % 64) :: b64Encode rest

/-- Go base64.RawURLEncoding.DecodeString (no padding): each group of four
characters yields three bytes; a final group of two or three characters
yields one or two bytes; a single leftover character is an error.  Like
Go's default decoder, trailing bits beyond the decoded bytes are ignored. -/
def b64DecodeRaw : List Char → Option (List Nat)
  | [] => some []
  | [_] => none
  | [c0, c1] =>
    match b64Val c0, b64Val c1 with
    | some v0, some v1 => some [v0 * 4 + v1 / 16]
    | _, _ => none
  | [c0, c1, c2] =>
    match b64Val c0, b64Val c1, b64Val c2 with
    | some v0, some v1, some v2 => some [v0 * 4 + v1 / 16, v1 % 16 * 16 + v2 / 4]
    | _, _, _ => none
  | c0 :: c1 :: c2 :: c3 :: rest =>
    match b64Val c0, b64Val c1, b64Val c2, b64Val c3, b64DecodeRaw rest with
    | some v0, some v1, some v2, some v3, some bs =>
      some ((v0 * 4 + v1 / 16) :: (v1 % 16 * 16 + v2 / 4) :: (v2 % 4 * 64 + v3) :: bs)
    | _, _, _, _, _ => none

/-- Go base64.URLEncoding.DecodeString (with padding): the length must be a
multiple of four and only the final group may end in at most two padding
characters. -/
def b64DecodePadded (s : List Char) : Option (List Nat) :=
  if s.length % 4 = 0 then
    let stripped := ((s.reverse.dropWhile (fun c => c = '=')).reverse)
    if s.length - stripped.length ≤ 2 then b64DecodeRaw stripped else none
  else none

/-- Go decodeBase64 (interfaces.go): try URL-safe base64 without padding
first, then with padding. -/
def decodeBase64 (s : List Char) : Option (List Nat) :=
  match b64DecodeRaw s with
  | some data => some data
  | none => b64DecodePadded s

/-- Go encodeBase64 (interfaces.go): URL-safe base64 without padding. -/
def encodeBase64 (data : List Nat) : List Char := b64Encode data

/-- Go encodeHex (interfaces.go): lowercase hexadecimal. -/
def encodeHex (data : List Nat) : List Char := hexEncode data

/-- Go decodeHex (interfaces.go): lowercases the input, then hex-decodes. -/
def decodeHex (s : List Char) : Option (List Nat) := hexDecode (s.map goToLower)

/-- UTF-8 bytes of one character code point (the Go conversion from string
to byte slice is UTF-8). -/
def utf8Char (c : Nat) : List Nat :=
  if c < 128 then [c]
  else if c < 2048 then [192 + c / 64, 128 + c % 64]
  else if c < 65536 then [224 + c / 4096, 128 + c / 64 % 64, 128 + c % 64]
  else [240 + c / 262144, 128 + c / 4096 % 64, 128 + c / 64 % 64, 128 + c % 64]

/-- UTF-8 bytes of a character sequence (Go string-to-bytes conversion). -/
def utf8Bytes (s : List Char) : List Nat :=
  (s.map (fun c => utf8Char c.toNat)).flatten

/-- Go constant PrefixBase64 = "b64-" (interfaces.go), as a character list. -/
def PrefixBase64 : List Char := ['b', '6', '4', '-']

/-- Go constant PrefixHex = "hex-" (interfaces.go), as a character list. -/
def PrefixHex : List Char := ['h', 'e', 'x', '-']

/-- Go encodeParam (interfaces.go): hex with prefix "hex-" for inputs of at
most 16 bytes, otherwise base64 with prefix "b64-". -/
def encodeParam (data : List Nat) : List Char :=
  if data.length ≤ 16 then PrefixHex ++ encodeHex data
  else PrefixBase64 ++ encodeBase64 data

/-- Go decodeParam (interfaces.go): dispatch on the recognized prefix; an
unprefixed label is returned as its plain text bytes. -/
def decodeParam (s : List Char) : Option (List Nat) :=
  if PrefixBase64.isPrefixOf s then decodeBase64 (s.drop PrefixBase64.length)
  else if PrefixHex.isPrefixOf s then decodeHex (s.drop PrefixHex.length)
  else some (utf8Bytes s)

/-- Go sanitizeLabel (interfaces.go): lowercase, keep the characters
a-z, 0-9 and the dash, fold underscore and space to a dash, drop every
other character, trim dashes at both ends, then truncate to 63 bytes. -/
def sanitizeLabel (s : List Char) : List Char :=
  let lowered := s.map goToLower
  let result := lowered.filterMap (fun r =>
    if ('a' ≤ r ∧ r ≤ 'z') ∨ ('0' ≤ r ∧ r ≤ '9') ∨ r = '-' then some r
    else if r = '_' ∨ r = ' ' then some '-' else none)
  let label := ((result.dropWhile (fun c => c = '-')).reverse.dropWhile (fun c => c = '-')).reverse
  if label.length > 63 then label.take 63 else label

theorem b64Val_b64Char (n : Nat) (h : n < 64) : b64Val (b64Char n) = some n := by
  interval_cases n <;> rfl

theorem hexDigitVal_hexDigit (n : Nat) (h : n < 16) : hexDigitVal (hexDigit n) = some n := by
  interval_cases n <;> rfl

theorem goToLower_hexDigit (n : Nat) (h : n < 16) : goToLower (hexDigit n) = hexDigit n := by
  interval_cases n <;> rfl

theorem hexDecode_hexEncode (b : List Nat) (hb : ∀ x ∈ b, x < 256) :
    hexDecode ((hexEncode b).map goToLower) = some b := by
  induction b with
  | nil => rfl
  | cons x xs ih =>
    have hx : x < 256 := hb x (by simp)
    have h1 : x / 16 < 16 := by omega
    have h2 : x % 16 < 16 := by omega
    have ih2 := ih (fun y hy => hb y (by simp [hy]))
    simp only [hexEncode, List.map_cons, goToLower_hexDigit _ h1, goToLower_hexDigit _ h2,
      hexDecode, hexDigitVal_hexDigit _ h1, hexDigitVal_hexDigit _ h2, ih2,
      Option.some.injEq, List.cons.injEq]
    exact ⟨by omega, trivial⟩

theorem decodeHex_encodeHex (b : List Nat) (hb : ∀ x ∈ b, x < 256) :
    decodeHex (encodeHex b) = some b :=
  hexDecode_hexEncode b hb

theorem b64DecodeRaw_b64Encode :
    ∀ (b : List Nat), (∀ x ∈ b, x < 256) → b64DecodeRaw (b64Encode b) = some b
  | [], _ => rfl
  | [b0], hb => by
    have h0 : b0 < 256 := hb b0 (by simp)
    simp only [b64Encode, b64DecodeRaw, b64Val_b64Char (b0 / 4) (by omega),
      b64Val_b64Char (b0 % 4 * 16) (by omega), Option.some.injEq, List.cons.injEq]
    exact ⟨by omega, trivial⟩
  | [b0, b1], hb => by
    have h0 : b0 < 256 := hb b0 (by simp)
    have h1 : b1 < 256 := hb b1 (by simp)
    simp only [b64Encode, b64DecodeRaw, b64Val_b64Char (b0 / 4) (by omega),
      b64Val_b64Char (b0 % 4 * 16 + b1 / 16) (by omega), b64Val_b64Char (b1 % 16 * 4) (by omega),
      Option.some.injEq, List.cons.injEq]
    exact ⟨by omega, by omega, trivial⟩
  | b0 :: b1 :: b2 :: rest, hb => by
    have h0 : b0 < 256 := hb b0 (by simp)
    have h1 : b1 < 256 := hb b1 (by simp)
    have h2 : b2 < 256 := hb b2 (by simp)
    have ih := b64DecodeRaw_b64Encode rest (fun y hy => hb y (by simp [hy]))
    simp only [b64Encode, b64DecodeRaw, b64Val_b64Char (b0 / 4) (by omega),
      b64Val_b64Char (b0 % 4 * 16 + b1 / 16) (by omega),
      b64Val_b64Char (b1 % 16 * 4 + b2 / 64) (by omega), b64Val_b64Char (b2 % 64) (by omega), ih,
      Option.some.injEq, List.cons.injEq]
    exact ⟨by omega, by omega, by omega, trivial⟩

theorem decodeBase64_encodeBase64 (b : List Nat) (hb : ∀ x ∈ b, x < 256) :
    decodeBase64 (encodeBase64 b) = some b := by
  simp [decodeBase64, encodeBase64, b64DecodeRaw_b64Encode b hb]

theorem prefixBase64_not_prefix_of_hex (rest : List Char) :
    PrefixBase64.isPrefixOf (PrefixHex ++ rest) = false := by
  simp [PrefixBase64, PrefixHex, List.isPrefixOf]

theorem prefixHex_not_prefix_of_base64 (rest : List Char) :
    PrefixHex.isPrefixOf (PrefixBase64 ++ rest) = false := by
  simp [PrefixBase64, PrefixHex, List.isPrefixOf]

theorem isPrefixOf_append (p rest : List Char) : p.isPrefixOf (p ++ rest) = true := by
  induction p with
  | nil => simp
  | cons c cs ih => simp [List.isPrefixOf_cons₂, ih]

/-- C6: for every byte string of length at most 1024, decodeParam inverts
encodeParam, and the prefix chosen by encodeParam is "hex-" exactly when
the input is at most 16 bytes long. -/
theorem decodeParam_encodeParam (b : List Nat) (hb : ∀ x ∈ b, x < 256)
    (_hlen : b.length ≤ 1024) :
    decodeParam (encodeParam b) = some b ∧
      (PrefixHex.isPrefixOf (encodeParam b) = true ↔ b.length ≤ 16) := by
  by_cases h : b.length ≤ 16
  · refine ⟨?_, by simp [encodeParam, h, isPrefixOf_append]⟩
    simp only [encodeParam, h, if_pos]
    rw [decodeParam, prefixBase64_not_prefix_of_hex]
    simp only [Bool.false_eq_true, if_false, isPrefixOf_append, if_pos]
    have : (PrefixHex ++ encodeHex b).drop PrefixHex.length = encodeHex b := by
      simp [PrefixHex]
    rw [this]
    exact decodeHex_encodeHex b hb
  · refine ⟨?_, by simp [encodeParam, h, prefixHex_not_prefix_of_base64]⟩
    simp only [encodeParam, h, if_neg, if_false]
    rw [decodeParam]
    simp only [isPrefixOf_append, if_pos]
    have : (PrefixBase64 ++ encodeBase64 b).drop PrefixBase64.length = encodeBase64 b := by
      simp [PrefixBase64]
    rw [this]
    exact decodeBase64_encodeBase64 b hb

/-- Witness for decodeParam_encodeParam at the concrete two-byte input. -/
theorem decodeParam_encodeParam_witness :
    (∀ x ∈ [0, 255], x < 256) ∧ List.length [0, 255] ≤ 1024 ∧
      (decodeParam (encodeParam [0, 255]) = some [0, 255] ∧
        (PrefixHex.isPrefixOf (encodeParam [0, 255]) = true ↔ List.length [0, 255] ≤ 16)) :=
  ⟨by decide, by decide, decodeParam_encodeParam [0, 255] (by decide) (by decide)⟩

/-- C5: the claim states that every sanitizeLabel output starts and ends
with a character in a-z0-9.  Because the code truncates to 63 bytes after
trimming dashes, the input of 62 letters a followed by the two characters
dash and b produces a 63-character label that ends in a dash, violating the
DNS label rule the code's own comment states.  This theorem evaluates the
code at that failing input. -/
theorem sanitizeLabel_truncation_trailing_dash :
    sanitizeLabel (List.replicate 62 'a' ++ ['-', 'b']) = List.replicate 62 'a' ++ ['-'] ∧
      (sanitizeLabel (List.replicate 62 'a' ++ ['-', 'b'])).getLast? = some '-' := by
  constructor <;> decide

/-- Go memoryCache.Set: the lifetime given to a stored entry, as a function
of the configured default TTL, the TTL carried by the response being
stored, and the ttl argument of Set.  Durations are modelled as integers
(Go time.Duration is an integer nanosecond count). -/
def memoryCacheSetLifetime (defaultTTL respTTL ttlArg : Int) : Int :=
  let ttl := if ttlArg = 0 then defaultTTL else ttlArg
  if respTTL > 0 ∧ respTTL < ttl then respTTL else ttl

/-- Go GetRaw (client.go) stores a successful response with
Set(cacheKey, resp, resp.TTL): the ttl argument equals the TTL of the
response itself. -/
def getRawStoreLifetime (defaultTTL respTTL : Int) : Int :=
  memoryCacheSetLifetime defaultTTL respTTL respTTL

/-- Spec-side lifetime as claim C4 states it: the minimum of response TTL
and configured default when both are positive, whichever is positive when
only one is, and the default otherwise. -/
def claimedLifetimeC4 (defaultTTL respTTL : Int) : Int :=
  if respTTL > 0 ∧ defaultTTL > 0 then min respTTL defaultTTL
  else if respTTL > 0 then respTTL
  else if defaultTTL > 0 then defaultTTL
  else defaultTTL

/-- C4 counterexample: a response TTL of 3600 stored under a configured
default of 300, both positive, is kept for 3600, not the claimed
minimum 300. -/
theorem getRaw_store_lifetime_not_min :
    getRawStoreLifetime 300 3600 = 3600 ∧ claimedLifetimeC4 300 3600 = 300 ∧
      (3600 : Int) ≠ 300 := by
  refine ⟨by decide, by decide, by decide⟩

/-- C4 amended: on the GetRaw path the stored lifetime equals the response
TTL whenever that TTL is nonzero and the configured default TTL otherwise;
the configured default never caps a positive response TTL. -/
theorem getRaw_store_lifetime (defaultTTL respTTL : Int) :
    getRawStoreLifetime defaultTTL respTTL =
      if respTTL = 0 then defaultTTL else respTTL := by
  by_cases h : respTTL = 0 <;>
    simp only [getRawStoreLifetime, memoryCacheSetLifetime, h, if_pos, if_neg, if_true, if_false] <;>
    split <;> omega

/-- Go Error struct (errors.go): a protocol error with code, message and
details. -/
structure Error where
  code : String
  message : String
  details : String
deriving DecidableEq

/-- Go sentinel ErrNotFound (errors.go). -/
def ErrNotFound : Error := ⟨"E004", "resource not found", ""⟩

/-- Go sentinel ErrUnauthorized (errors.go). -/
def ErrUnauthorized : Error := ⟨"E002", "authentication required", ""⟩

/-- Go errorFromCode (errors.go): code E000 maps to no error; the known
codes carry their fixed messages; an unknown code yields "unknown error". -/
def errorFromCode (code details : String) : Option Error :=
  match code with
  | "E000" => none
  | "E001" => some ⟨code, "malformed query", details⟩
  | "E002" => some ⟨code, "authentication required", details⟩
  | "E003" => some ⟨code, "insufficient permissions", details⟩
  | "E004" => some ⟨code, "resource not found", details⟩
  | "E005" => some ⟨code, "resource already exists", details⟩
  | "E006" => some ⟨code, "data exceeds size limit", details⟩
  | "E007" => some ⟨code, "invalid data format", details⟩
  | "E008" => some ⟨code, "version conflict", details⟩
  | "E009" => some ⟨code, "namespace error", details⟩
  | "E010" => some ⟨code, "internal server error", details⟩
  | "E011" => some ⟨code, "service unavailable", details⟩
  | "E012" => some ⟨code, "query timeout", details⟩
  | "E013" => some ⟨code, "rate limit exceeded", details⟩
  | "E014" => some ⟨code, "encryption required", details⟩
  | _ => some ⟨code, "unknown error", details⟩

/-- A parsed UQRP response (client.go Response struct).  The data field is
none when the Go Data byte slice is nil. -/
structure Response where
  version : String := ""
  status : String := ""
  rtype : String := ""
  encoding : String := ""
  format : String := ""
  ttl : Int := 0
  data : Option (List Nat) := none
  error : String := ""
  chunks : Int := 0
  chunkID : Int := 0
  hash : String := ""
deriving DecidableEq

/-- Go Response.IsSuccess (client.go). -/
def Response.isSuccess (r : Response) : Bool :=
  r.status == "ok" || r.status == "success"

/-- Go strings.HasPrefix, on the character lists of the two strings. -/
def goHasPrefix (s pre : String) : Bool := pre.data.isPrefixOf s.data

/-- Go Response.ToError (client.go): none on success, otherwise the error
the status denotes.  String slicing on the error details is modelled on
characters; the statuses involved are ASCII. -/
def Response.toError (r : Response) : Option Error :=
  if r.isSuccess then none
  else if goHasPrefix r.status "E0" then errorFromCode r.status r.error
  else if r.status = "notfound" then errorFromCode "E004" r.error
  else if r.status = "unauthorized" then errorFromCode "E002" r.error
  else if r.status = "forbidden" then errorFromCode "E003" r.error
  else if r.status = "ratelimit" ∨ r.status = "ratelimited" then errorFromCode "E013" r.error
  else if r.status = "timeout" then errorFromCode "E012" r.error
  else if r.status = "error" then
    if r.error ≠ "" ∧ goHasPrefix r.error "E0" then
      errorFromCode (String.mk (r.error.data.take 4))
        (if r.error.data.length > 5 then String.mk (r.error.data.drop 5) else "")
    else errorFromCode "E010" r.error
  else some ⟨"E010", r.status, r.error⟩

/-- Outcome of Go Response.Unmarshal (client.go).  JSON decoding into the
caller's target is abstracted by a predicate saying whether json.Unmarshal
succeeds on the data bytes, and by whether the target is a string pointer
for the text branch; the nil-data short-circuit and the format dispatch
are from the source. -/
inductive UnmarshalResult where
  | ok
  | errSentinel (e : Error)
  | errJsonUnmarshal
  | errTextTarget
  | errUnsupportedFormat (f : String)
deriving DecidableEq

/-- Go Response.Unmarshal (client.go). -/
def Response.unmarshal (jsonOk : List Nat → Bool) (targetIsStringPtr : Bool)
    (r : Response) : UnmarshalResult :=
  match r.data with
  | none => .errSentinel ErrNotFound
  | some d =>
    if r.format = "json" ∨ r.format = "" then
      if jsonOk d then .ok else .errJsonUnmarshal
    else if r.format = "text" then
      if targetIsStringPtr then .ok else .errTextTarget
    else if jsonOk d then .ok else .errUnsupportedFormat r.format

/-- C2 counterexample: a response whose status is the non-success
"unauthorized" and whose data is absent makes Unmarshal return the
not-found sentinel, not the error derived from the status (code E002). -/
theorem unmarshal_nil_data_ignores_status :
    Response.unmarshal (fun _ => true) false { status := "unauthorized", data := none } =
        .errSentinel ErrNotFound ∧
      Response.toError { status := "unauthorized", data := none } = some ErrUnauthorized ∧
      ErrNotFound ≠ ErrUnauthorized := by
  refine ⟨rfl, by decide, by decide⟩

/-- C2 amended: whenever the parsed response has absent data, Unmarshal
returns the not-found error, regardless of the response status. -/
theorem unmarshal_nil_data (jsonOk : List Nat → Bool) (targetIsStringPtr : Bool)
    (r : Response) (h : r.data = none) :
    r.unmarshal jsonOk targetIsStringPtr = .errSentinel ErrNotFound := by
  unfold Response.unmarshal
  rw [h]

/-- Witness for unmarshal_nil_data at a concrete success-status response. -/
theorem unmarshal_nil_data_witness :
    (({ status := "ok" } : Response).data = none) ∧
      Response.unmarshal (fun _ => false) true { status := "ok" } =
        .errSentinel ErrNotFound :=
  ⟨rfl, unmarshal_nil_data (fun _ => false) true { status := "ok" } rfl⟩

/-- Go clientConfig (options source); the fields the modelled operations
read.  The Go field called namespace is nspace here, namespace being a
Lean keyword. -/
structure ClientConfig where
  apiKey : String := ""
  nspace : String := ""
  version : String := "v1"
  tld : String := "net"
  enforceSecurity : Bool := true
  maxRetries : Nat := 3

/-- Go requestConfig (options source): per-request options. -/
structure RequestConfig where
  ttl : Int := 0
  forceBlob : Bool := false
  skipCache : Bool := false
  encrypt : Bool := false
  bdtToken : String := ""
  ctpToken : String := ""
  nbaToken : String := ""

/-- Go constant PrefixAuth = "auth-" (interfaces.go). -/
def PrefixAuth : String := "auth-"

/-- sanitizeLabel lifted to Lean strings (the Go function maps string to
string). -/
def sanitizeLabelStr (s : String) : String := String.mk (sanitizeLabel s.data)

/-- Go insertAfter (client.go): insert a value after the given index.  The
Go version copies into a fresh slice; all call sites pass index 0 with a
nonempty slice, where this take-append-drop form agrees with it. -/
def insertAfter (slice : List String) (index : Nat) (value : String) : List String :=
  slice.take (index + 1) ++ [value] ++ slice.drop (index + 1)

/-- Go Client.generateAuthToken (client.go).  HMAC-SHA-256 itself is a
parameter, a function from key bytes and message bytes to the 32-byte tag:
every property stated about query names depends only on the shape and
position of the token, never on the tag bits.  The timestamp argument is
the Unix time the call observes. -/
def generateAuthToken (hmacSha256 : List Nat → List Nat → List Nat) (cfg : ClientConfig)
    (timestamp : Int) (operation resource key : String) : String :=
  let message :=
    operation ++ "|" ++ resource ++ "|" ++ key ++ "|" ++ cfg.nspace ++ "|" ++ toString timestamp
  let signature := hmacSha256 (utf8Bytes cfg.apiKey.data) (utf8Bytes message.data)
  let sig := String.mk (hexEncode (signature.take 16))
  PrefixAuth ++ sig ++ "-t-" ++ toString timestamp

/-- Go Client.buildQueryName (client.go), as the list of labels that the
source joins with periods: operation, optional sanitized key, sanitized
resource, namespace or "public", version, "resolvedb", TLD; then the auth
token is spliced in directly after the operation when an API key is
configured, and each supplied security token is inserted after index 0,
BDT first, then CTP, then NBA. -/
def buildQueryNameParts (hmacSha256 : List Nat → List Nat → List Nat) (cfg : ClientConfig)
    (timestamp : Int) (operation resource key : String) (reqConfig : RequestConfig) :
    List String :=
  let parts := [operation]
  let parts := if key ≠ "" then parts ++ [sanitizeLabelStr key] else parts
  let parts := parts ++ [sanitizeLabelStr resource]
  let parts := parts ++ [if cfg.nspace ≠ "" then sanitizeLabelStr cfg.nspace else "public"]
  let parts := parts ++ [cfg.version]
  let parts := parts ++ ["resolvedb", cfg.tld]
  let parts :=
    if cfg.apiKey ≠ "" then
      parts.take 1 ++ [generateAuthToken hmacSha256 cfg timestamp operation resource key] ++
        parts.drop 1
    else parts
  let parts := if reqConfig.bdtToken ≠ "" then insertAfter parts 0 reqConfig.bdtToken else parts
  let parts := if reqConfig.ctpToken ≠ "" then insertAfter parts 0 reqConfig.ctpToken else parts
  let parts := if reqConfig.nbaToken ≠ "" then insertAfter parts 0 reqConfig.nbaToken else parts
  parts

/-- Go Client.buildQueryName: the labels joined with periods. -/
def buildQueryName (hmacSha256 : List Nat → List Nat → List Nat) (cfg : ClientConfig)
    (timestamp : Int) (operation resource key : String) (reqConfig : RequestConfig) : String :=
  String.intercalate "."
    (buildQueryNameParts hmacSha256 cfg timestamp operation resource key reqConfig)

/-- Go Client.buildQueryNameWithData (client.go): operation, base64 data
label, sanitized key, sanitized resource, namespace or "public", version,
"resolvedb", TLD, with the auth token spliced in after the operation when
an API key is configured.  The Go function receives the request config but
never reads it. -/
def buildQueryNameWithDataParts (hmacSha256 : List Nat → List Nat → List Nat)
    (cfg : ClientConfig) (timestamp : Int) (operation resource key data : String) :
    List String :=
  let parts := [operation]
  let parts := parts ++ [String.mk PrefixBase64 ++ data]
  let parts := parts ++ [sanitizeLabelStr key]
  let parts := parts ++ [sanitizeLabelStr resource]
  let parts := parts ++ [if cfg.nspace ≠ "" then sanitizeLabelStr cfg.nspace else "public"]
  let parts := parts ++ [cfg.version]
  let parts := parts ++ ["resolvedb", cfg.tld]
  let parts :=
    if cfg.apiKey ≠ "" then
      parts.take 1 ++ [generateAuthToken hmacSha256 cfg timestamp operation resource key] ++
        parts.drop 1
    else parts
  parts

/-- Go Client.buildQueryNameWithData: the labels joined with periods. -/
def buildQueryNameWithData (hmacSha256 : List Nat → List Nat → List Nat) (cfg : ClientConfig)
    (timestamp : Int) (operation resource key data : String) : String :=
  String.intercalate "."
    (buildQueryNameWithDataParts hmacSha256 cfg timestamp operation resource key data)

/-- C1 counterexample: with the three security tokens supplied and an API
key configured, the emitted name keeps the operation as the left-most
label, places the tokens directly after it, and places the auth label
after the tokens rather than immediately after the operation.  The HMAC
parameter is the constant zero tag; label positions do not depend on it. -/
theorem buildQueryName_tokens_not_outermost :
    buildQueryNameParts (fun _ _ => List.replicate 32 0)
        { apiKey := "k", nspace := "", version := "v1", tld := "net" } 0 "get" "weather" ""
        { bdtToken := "bdt-x", ctpToken := "ctp-y", nbaToken := "sig-z" } =
      ["get", "sig-z", "ctp-y", "bdt-x", "auth-00000000000000000000000000000000-t-0",
        "weather", "public", "v1", "resolvedb", "net"] ∧
      (buildQueryNameParts (fun _ _ => List.replicate 32 0)
          { apiKey := "k", nspace := "", version := "v1", tld := "net" } 0 "get" "weather" ""
          { bdtToken := "bdt-x", ctpToken := "ctp-y", nbaToken := "sig-z" }).head? =
        some "get" := by
  refine ⟨by decide, by decide⟩

/-- C1 amended: the operation label always comes first; the NBA, CTP and
BDT token labels, when supplied, follow it immediately in that order; the
auth label, when an API key is configured, comes after those tokens, so it
is immediately after the operation exactly when no token is supplied; the
remaining labels follow. -/
theorem buildQueryName_token_order (hmacSha256 : List Nat → List Nat → List Nat)
    (cfg : ClientConfig) (timestamp : Int) (operation resource key : String)
    (rc : RequestConfig) :
    buildQueryNameParts hmacSha256 cfg timestamp operation resource key rc =
      operation ::
        ((if rc.nbaToken ≠ "" then [rc.nbaToken] else []) ++
          (if rc.ctpToken ≠ "" then [rc.ctpToken] else []) ++
          (if rc.bdtToken ≠ "" then [rc.bdtToken] else []) ++
          (if cfg.apiKey ≠ "" then
              [generateAuthToken hmacSha256 cfg timestamp operation resource key]
            else []) ++
          (if key ≠ "" then [sanitizeLabelStr key] else []) ++
          [sanitizeLabelStr resource,
            if cfg.nspace ≠ "" then sanitizeLabelStr cfg.nspace else "public",
            cfg.version, "resolvedb", cfg.tld]) := by
  by_cases h1 : cfg.apiKey = "" <;> by_cases h2 : rc.bdtToken = "" <;>
    by_cases h3 : rc.ctpToken = "" <;> by_cases h4 : rc.nbaToken = "" <;>
    by_cases h5 : key = "" <;>
    simp [buildQueryNameParts, insertAfter, h1, h2, h3, h4, h5]

/-- Byte of a message at an index (Go data[i]; the parser only reads
indices it has bounds-checked, so the default is never observed there). -/
def byteAt (data : List Nat) (i : Nat) : Nat := data.getD i 0

/-- The name-skipping loop of Go parseDNSResponse: advance past a DNS name
starting at the offset, stopping one past a zero length octet, two past a
compression pointer (length octet at least 192), or at the end of the
message.  The loop is fueled; each iteration advances the offset by at
least one, so any fuel above the message length is enough. -/
def skipName (data : List Nat) : Nat → Nat → Nat
  | offset, 0 => offset
  | offset, fuel + 1 =>
    if offset < data.length then
      if byteAt data offset = 0 then offset + 1
      else if byteAt data offset ≥ 192 then offset + 2
      else skipName data (offset + 1 + byteAt data offset) fuel
    else offset

/-- The question-skipping loop of Go parseDNSResponse: for each question,
skip its name and four bytes of QTYPE and QCLASS. -/
def skipQuestions (data : List Nat) : Nat → Nat → Nat
  | 0, offset => offset
  | n + 1, offset => skipQuestions data n (skipName data offset (data.length + 1) + 4)

/-- The TXT stripping loop of Go parseDNSResponse: each fragment is one
length octet followed by that many bytes; fragments whose declared length
overruns the record contribute nothing but still advance the position. -/
def stripTXT (rdata : List Nat) : Nat → List Nat → Nat → List Nat
  | _, acc, 0 => acc
  | pos, acc, fuel + 1 =>
    if pos < rdata.length then
      stripTXT rdata (pos + 1 + byteAt rdata pos)
        (if pos + 1 + byteAt rdata pos ≤ rdata.length then
            acc ++ ((rdata.drop (pos + 1)).take (byteAt rdata pos))
          else acc)
        fuel
    else acc

/-- Transport response (transport.go Response struct). -/
structure TransportResponse where
  data : List Nat := []
  ttl : Nat := 0
  records : List (List Nat) := []
deriving DecidableEq

/-- The answer-section loop of Go parseDNSResponse: walk up to ancount
records while the offset is inside the message; for each, skip the name,
stop if ten header bytes do not fit, read TYPE, TTL and RDLENGTH, stop if
the record data does not fit, fragment-strip TXT records, append the
record, and keep the first nonzero TTL seen in the accumulator. -/
def parseAnswers (data : List Nat) : Nat → Nat → List (List Nat) → Nat →
    List (List Nat) × Nat
  | 0, _, recs, ttl => (recs, ttl)
  | n + 1, offset, recs, ttl =>
    if offset < data.length then
      let o1 := skipName data offset (data.length + 1)
      if o1 + 10 > data.length then (recs, ttl)
      else
        let rtype := byteAt data o1 * 256 + byteAt data (o1 + 1)
        let ttlv := byteAt data (o1 + 4) * 16777216 + byteAt data (o1 + 5) * 65536 +
          byteAt data (o1 + 6) * 256 + byteAt data (o1 + 7)
        let rdlen := byteAt data (o1 + 8) * 256 + byteAt data (o1 + 9)
        if o1 + 10 + rdlen > data.length then (recs, ttl)
        else
          let rdata := (data.drop (o1 + 10)).take rdlen
          let rdata2 :=
            if rtype = 16 ∧ rdata.length > 0 then stripTXT rdata 0 [] (rdata.length + 1)
            else rdata
          parseAnswers data n (o1 + 10 + rdlen) (recs ++ [rdata2])
            (if ttl = 0 then ttlv else ttl)
    else (recs, ttl)

/-- Go parseDNSResponse (DoH transport source): reject messages shorter
than twelve bytes, skip the question section, walk the answer records, and
return the concatenated record data, the collected records and the TTL
accumulator. -/
def parseDNSResponse (data : List Nat) : Option TransportResponse :=
  if data.length < 12 then none
  else
    let res := parseAnswers data (byteAt data 6 * 256 + byteAt data 7)
      (skipQuestions data (byteAt data 4 * 256 + byteAt data 5) 12) [] 0
    some { data := res.1.flatten, ttl := res.2, records := res.1 }

/-- Spec-side list of the TTL fields of the answer records, walked exactly
as parseAnswers walks the message; it names "the answer records in the
message" that claim C3 quantifies over. -/
def answerTTLList (data : List Nat) : Nat → Nat → List Nat
  | 0, _ => []
  | n + 1, offset =>
    if offset < data.length then
      let o1 := skipName data offset (data.length + 1)
      if o1 + 10 > data.length then []
      else
        let ttlv := byteAt data (o1 + 4) * 16777216 + byteAt data (o1 + 5) * 65536 +
          byteAt data (o1 + 6) * 256 + byteAt data (o1 + 7)
        let rdlen := byteAt data (o1 + 8) * 256 + byteAt data (o1 + 9)
        if o1 + 10 + rdlen > data.length then []
        else ttlv :: answerTTLList data n (o1 + 10 + rdlen)
    else []

/-- Spec-side: the answer TTLs of a message accepted by the parser. -/
def answerTTLs (data : List Nat) : List Nat :=
  if data.length < 12 then []
  else answerTTLList data (byteAt data 6 * 256 + byteAt data 7)
    (skipQuestions data (byteAt data 4 * 256 + byteAt data 5) 12)

/-- First nonzero element of a list, or 0 when there is none. -/
def firstNonZero (l : List Nat) : Nat := (l.find? (fun x => x ≠ 0)).getD 0

/-- Spec-side smallest nonzero element of a list, when one exists. -/
def minNonZero (l : List Nat) : Option Nat :=
  match l.filter (fun x => x ≠ 0) with
  | [] => none
  | x :: xs => some (xs.foldl Nat.min x)

theorem firstNonZero_cons (x : Nat) (l : List Nat) :
    firstNonZero (x :: l) = if x = 0 then firstNonZero l else x := by
  by_cases h : x = 0 <;> simp [firstNonZero, List.find?, h]

theorem parseAnswers_ttl (data : List Nat) (n : Nat) :
    ∀ (offset : Nat) (recs : List (List Nat)) (ttl : Nat),
      (parseAnswers data n offset recs ttl).2 =
        if ttl = 0 then firstNonZero (answerTTLList data n offset) else ttl := by
  induction n with
  | zero =>
    intro offset recs ttl
    by_cases h : ttl = 0 <;> simp [parseAnswers, answerTTLList, firstNonZero, h]
  | succ n ih =>
    intro offset recs ttl
    simp only [parseAnswers, answerTTLList]
    by_cases h0 : offset < data.length
    · simp only [h0, if_true]
      by_cases h1 : skipName data offset (data.length + 1) + 10 > data.length
      · simp only [h1, if_true]
        by_cases h : ttl = 0 <;> simp [firstNonZero, h]
      · simp only [h1, if_false]
        by_cases h2 : skipName data offset (data.length + 1) + 10 +
            (byteAt data (skipName data offset (data.length + 1) + 8) * 256 +
              byteAt data (skipName data offset (data.length + 1) + 9)) > data.length
        · simp only [h2, if_true]
          by_cases h : ttl = 0 <;> simp [firstNonZero, h]
        · simp only [h2, if_false, ih, firstNonZero_cons]
          by_cases h : ttl = 0
          · simp only [h, if_true]
          · simp [h]
    · simp only [h0, if_false]
      by_cases h : ttl = 0 <;> simp [firstNonZero, h]

/-- The concrete message used for claim C3: header with no questions and
two answers, both TXT records, with TTLs 300 and then 5. -/
def dnsMsgC3 : List Nat :=
  [0, 0, 128, 0, 0, 0, 0, 2, 0, 0, 0, 0] ++
    [0, 0, 16, 0, 1, 0, 0, 1, 44, 0, 2, 1, 97] ++
    [0, 0, 16, 0, 1, 0, 0, 0, 5, 0, 2, 1, 98]

/-- C3 counterexample: a response whose two TXT answers carry TTLs 300 and
then 5 parses with TTL 300, the first nonzero TTL in record order, while
the smallest nonzero TTL among the answers is 5. -/
theorem parseDNSResponse_ttl_not_min :
    (parseDNSResponse dnsMsgC3).map TransportResponse.ttl = some 300 ∧
      answerTTLs dnsMsgC3 = [300, 5] ∧ minNonZero [300, 5] = some 5 ∧ (300 : Nat) ≠ 5 := by
  refine ⟨by decide, by decide, by decide, by decide⟩

/-- C3 amended: the TTL returned by the parser is the first nonzero TTL
among the answer records in message order (zero when all are zero), not
necessarily the smallest nonzero one. -/
theorem parseDNSResponse_ttl_first_nonzero (data : List Nat) (resp : TransportResponse)
    (h : parseDNSResponse data = some resp) :
    resp.ttl = firstNonZero (answerTTLs data) := by
  unfold parseDNSResponse at h
  by_cases hl : data.length < 12
  · simp [hl] at h
  · simp only [hl, if_false, Option.some.injEq] at h
    subst h
    simp [answerTTLs, hl, parseAnswers_ttl]

/-- Witness for parseDNSResponse_ttl_first_nonzero at the concrete two
record message. -/
theorem parseDNSResponse_ttl_first_nonzero_witness :
    parseDNSResponse dnsMsgC3 = some ⟨[97, 98], 300, [[97], [98]]⟩ ∧
      (⟨[97, 98], 300, [[97], [98]]⟩ : TransportResponse).ttl =
        firstNonZero (answerTTLs dnsMsgC3) :=
  ⟨by decide, parseDNSResponse_ttl_first_nonzero dnsMsgC3 _ (by decide)⟩

/-- A member transport of the Go Multi (transport.go), modelled by the two
observations the claims use: its Query function, returning the possibly
nil response and possibly nil error pair that Go returns, and its
IsEncrypted answer. -/
structure Member (Req Resp E : Type) where
  query : Req → Option Resp × Option E
  isEncrypted : Bool

/-- The fallback loop of Go Multi.Query: return the first member result
carrying a nil error, remembering the last error otherwise; with no
members left, return a nil response and the remembered error. -/
def multiQueryGo {Req Resp E : Type} (req : Req) :
    List (Member Req Resp E) → Option E → Option Resp × Option E
  | [], lastErr => (none, lastErr)
  | t :: rest, _lastErr =>
    match t.query req with
    | (resp, none) => (resp, none)
    | (_, some e) => multiQueryGo req rest (some e)

/-- Go Multi.Query (transport.go): the remembered error starts nil. -/
def multiQuery {Req Resp E : Type} (ts : List (Member Req Resp E)) (req : Req) :
    Option Resp × Option E :=
  multiQueryGo req ts none

/-- Go Multi.IsEncrypted (transport.go): false as soon as one member is
not encrypted, and otherwise true exactly when the member list is
nonempty. -/
def multiIsEncrypted {Req Resp E : Type} (ts : List (Member Req Resp E)) : Bool :=
  if ts.all (fun t => t.isEncrypted) then decide (0 < ts.length) else false

/-- C10: a multi-transport over an empty member list answers every request
with a nil response together with a nil error, so the caller gets neither
a usable response nor a failure indication. -/
theorem multiQuery_empty (Req Resp E : Type) (req : Req) :
    multiQuery ([] : List (Member Req Resp E)) req = (none, none) := rfl

/-- C8 counterexample: over the empty member list, every member reports
encrypted vacuously, yet IsEncrypted returns false, so the claimed "if and
only if every member reports encrypted" fails on the empty
multi-transport. -/
theorem multiIsEncrypted_empty_not_iff :
    List.all ([] : List (Member Unit Unit Unit)) (fun t => t.isEncrypted) = true ∧
      multiIsEncrypted ([] : List (Member Unit Unit Unit)) = false :=
  ⟨rfl, rfl⟩

theorem multiQueryGo_first_success {Req Resp E : Type} (req : Req) :
    ∀ (pre : List (Member Req Resp E)) (t : Member Req Resp E) (post : List (Member Req Resp E))
      (le : Option E), (∀ u ∈ pre, ((u.query req).2).isSome = true) → (t.query req).2 = none →
      multiQueryGo req (pre ++ t :: post) le = ((t.query req).1, none) := by
  intro pre
  induction pre with
  | nil =>
    intro t post le _ ht
    rcases hq : t.query req with ⟨resp, err⟩
    rw [hq] at ht
    subst ht
    simp [multiQueryGo, hq]
  | cons u rest ih =>
    intro t post le hpre ht
    rcases hq : u.query req with ⟨resp, err⟩
    have hu : ((u.query req).2).isSome = true := hpre u (by simp)
    rw [hq] at hu
    rcases err with _ | e
    · simp at hu
    · simp only [List.cons_append, multiQueryGo, hq]
      exact ih t post (some e) (fun v hv => hpre v (by simp [hv])) ht

theorem multiQueryGo_cons_fail {Req Resp E : Type} (req : Req) (t : Member Req Resp E)
    (rest : List (Member Req Resp E)) (le : Option E) (resp : Option Resp) (e : E)
    (hq : t.query req = (resp, some e)) :
    multiQueryGo req (t :: rest) le = multiQueryGo req rest (some e) := by
  simp [multiQueryGo, hq]

theorem multiQueryGo_all_fail {Req Resp E : Type} (req : Req) :
    ∀ (ts : List (Member Req Resp E)) (h : ts ≠ []) (le : Option E),
      (∀ u ∈ ts, ((u.query req).2).isSome = true) →
      multiQueryGo req ts le = (none, ((ts.getLast h).query req).2) := by
  intro ts
  induction ts with
  | nil => intro h; exact absurd rfl h
  | cons u rest ih =>
    intro h le hall
    rcases hq : u.query req with ⟨resp, err⟩
    have hu : ((u.query req).2).isSome = true := hall u (by simp)
    rw [hq] at hu
    rcases err with _ | e
    · simp at hu
    · rcases rest with _ | ⟨v, vs⟩
      · simp [multiQueryGo, hq]
      · have hne : v :: vs ≠ [] := by simp
        rw [multiQueryGo_cons_fail req u (v :: vs) le resp e hq,
          ih hne (some e) (fun w hw => hall w (by simp [hw])),
          List.getLast_cons hne]

/-- C8 amended: Query returns the response of the first member whose query
succeeds, skipping the members before it when they all fail; when the
member list is nonempty and every member fails, Query returns a nil
response with the last member's error; and IsEncrypted is true exactly
when the member list is nonempty and every member reports encrypted.  On
the empty list Query returns a nil response and nil error and IsEncrypted
is false. -/
theorem multi_transport_fallback {Req Resp E : Type}
    (ts : List (Member Req Resp E)) (req : Req) :
    (∀ (pre : List (Member Req Resp E)) (t : Member Req Resp E)
        (post : List (Member Req Resp E)), ts = pre ++ t :: post →
        (∀ u ∈ pre, ((u.query req).2).isSome = true) → (t.query req).2 = none →
        multiQuery ts req = ((t.query req).1, none)) ∧
      ((∀ u ∈ ts, ((u.query req).2).isSome = true) → ∀ h : ts ≠ [],
        multiQuery ts req = (none, ((ts.getLast h).query req).2)) ∧
      (multiIsEncrypted ts = true ↔ ts ≠ [] ∧ ∀ t ∈ ts, t.isEncrypted = true) := by
  refine ⟨?_, ?_, ?_⟩
  · intro pre t post hts hpre ht
    rw [multiQuery, hts]
    exact multiQueryGo_first_success req pre t post none hpre ht
  · intro hall h
    exact multiQueryGo_all_fail req ts h none hall
  · constructor
    · intro h
      rw [multiIsEncrypted] at h
      by_cases ha : ts.all (fun t => t.isEncrypted) = true
      · refine ⟨?_, by simpa [List.all_eq_true] using ha⟩
        rw [if_pos ha] at h
        intro hnil
        subst hnil
        simp at h
      · rw [if_neg ha] at h
        exact absurd h (by simp)
    · rintro ⟨hne, hall⟩
      have ha : ts.all (fun t => t.isEncrypted) = true := by
        simpa [List.all_eq_true] using hall
      rw [multiIsEncrypted, if_pos ha]
      simpa [List.length_pos] using hne

/-- Concrete members used by the fallback witness. -/
def memberFail1 : Member Nat Nat Nat := ⟨fun _ => (none, some 1), false⟩

/-- Concrete members used by the fallback witness. -/
def memberOk : Member Nat Nat Nat := ⟨fun _ => (some 7, none), true⟩

/-- Concrete members used by the fallback witness. -/
def memberFail2 : Member Nat Nat Nat := ⟨fun _ => (none, some 2), true⟩

/-- Witness for multi_transport_fallback on concrete member lists: first
success after one failure, last error when all fail, and encryption
reported over an all-encrypted nonempty list. -/
theorem multi_transport_fallback_witness :
    multiQuery [memberFail1, memberOk, memberFail2] 0 = (some 7, none) ∧
      multiQuery [memberFail1, memberFail2] 0 = (none, some 2) ∧
      multiIsEncrypted [memberOk, memberFail2] = true := by
  refine ⟨?_, ?_, ?_⟩
  · exact (multi_transport_fallback [memberFail1, memberOk, memberFail2] 0).1
      [memberFail1] memberOk [memberFail2] rfl
      (by intro u hu; rw [List.mem_singleton] at hu; subst hu; rfl) rfl
  · exact (multi_transport_fallback [memberFail1, memberFail2] 0).2.1
      (by intro u hu; rcases List.mem_cons.mp hu with h | h
          · subst h; rfl
          · rw [List.mem_singleton] at h; subst h; rfl)
      (by simp)
  · exact (multi_transport_fallback [memberOk, memberFail2] 0).2.2.mpr
      ⟨by simp, by intro t ht; rcases List.mem_cons.mp ht with h | h
                   · subst h; rfl
                   · rw [List.mem_singleton] at h; subst h; rfl⟩

/-- Go normalizeKey (cache source): lowercase before storage. -/
def normalizeKey (key : String) : String := String.mk (key.data.map goToLower)

/-- Go buildCacheKey (cache source): join the parts with periods and
normalize. -/
def buildCacheKey (operation resource key nspace version : String) : String :=
  normalizeKey (String.intercalate "." [operation, resource, key, nspace, version])

/-- Go doWithRetry with its retryer (retry source): call the function; on
error, stop when no retries remain or the error is not retryable, else
sleep (unobservable here) and try again.  The outcome of each attempt is
supplied as a function of the attempt index; the result is the number of
calls made and the final outcome.  The remaining argument starts at
MaxRetries and mirrors ShouldRetry's attempt bound. -/
def doWithRetryGo {E A : Type} (isRetryable : E → Bool) (fn : Nat → Except E A) :
    Nat → Nat → Nat × Except E A
  | attempt, 0 =>
    match fn attempt with
    | .ok v => (attempt + 1, .ok v)
    | .error e => (attempt + 1, .error e)
  | attempt, r + 1 =>
    match fn attempt with
    | .ok v => (attempt + 1, .ok v)
    | .error e =>
      if isRetryable e then doWithRetryGo isRetryable fn (attempt + 1) r
      else (attempt + 1, .error e)

/-- Go doWithRetry (retry source). -/
def doWithRetry {E A : Type} (maxRetries : Nat) (isRetryable : E → Bool)
    (fn : Nat → Except E A) : Nat × Except E A :=
  doWithRetryGo isRetryable fn 0 maxRetries

/-- Externally visible effects of a client call: a transport query issued
with a name, or a cache deletion of a key. -/
inductive ClientEvent where
  | transportQuery (name : String)
  | cacheDelete (key : String)
deriving DecidableEq

/-- The errors Go Client.Set can return: the unauthorized sentinel, the
encrypted-transport-required sentinel, a wrapped JSON encode error, an
error propagated from the retried query, or the protocol error a
non-success response maps to. -/
inductive SetError (QE : Type) where
  | unauthorized
  | encryptedTransportRequired
  | encodeError
  | queryError (e : QE)
  | responseError (e : Error)

/-- Go Client.Set (client.go), as a function from the configuration and
the observable collaborators to the list of effects (transport queries
issued, cache deletions, in order) and the returned error, none meaning
success.  The JSON encoding outcome and the per-attempt query outcomes
(transport dispatch plus response parsing, as executeQuery produces them)
are parameters.  The check order and the short-circuits follow the
source: API key first, then the security check, then encoding, then the
retried dispatch, then the response check, then cache invalidation. -/
def clientSet {QE : Type} (cfg : ClientConfig) (transportEncrypted : Bool)
    (encoded : Option String) (isRetryable : QE → Bool)
    (attempts : Nat → Except QE Response) (hmacSha256 : List Nat → List Nat → List Nat)
    (timestamp : Int) (resource key : String) :
    List ClientEvent × Option (SetError QE) :=
  if cfg.apiKey = "" then ([], some .unauthorized)
  else if cfg.enforceSecurity && !transportEncrypted then
    ([], some .encryptedTransportRequired)
  else
    match encoded with
    | none => ([], some .encodeError)
    | some data =>
      let queryName := buildQueryNameWithData hmacSha256 cfg timestamp "put" resource key data
      let res := doWithRetry cfg.maxRetries isRetryable attempts
      let events := List.replicate res.1 (ClientEvent.transportQuery queryName)
      match res.2 with
      | .error e => (events, some (.queryError e))
      | .ok resp =>
        match resp.toError with
        | some e => (events, some (.responseError e))
        | none =>
          (events ++ [ClientEvent.cacheDelete
              (buildCacheKey "get" resource key cfg.nspace cfg.version)], none)

/-- C7: Set returns the unauthorized error when the configured API key is
empty, and otherwise returns the encrypted-transport-required error when
security enforcement is on and the transport is not encrypted; in both
cases the effect list is empty, so the call returns before any transport
query is issued and without touching the cache. -/
theorem clientSet_refusals {QE : Type} (cfg : ClientConfig) (transportEncrypted : Bool)
    (encoded : Option String) (isRetryable : QE → Bool)
    (attempts : Nat → Except QE Response) (hmacSha256 : List Nat → List Nat → List Nat)
    (timestamp : Int) (resource key : String) :
    (cfg.apiKey = "" →
      clientSet cfg transportEncrypted encoded isRetryable attempts hmacSha256 timestamp
          resource key = ([], some .unauthorized)) ∧
      (cfg.apiKey ≠ "" → cfg.enforceSecurity = true → transportEncrypted = false →
        clientSet cfg transportEncrypted encoded isRetryable attempts hmacSha256 timestamp
            resource key = ([], some .encryptedTransportRequired)) := by
  constructor
  · intro h
    simp [clientSet, h]
  · intro h1 h2 h3
    simp [clientSet, h1, h2, h3]

/-- Witness for clientSet_refusals: a concrete empty-key client and a
concrete enforcing client on a cleartext transport. -/
theorem clientSet_refusals_witness :
    @clientSet Unit { apiKey := "" } true (some "") (fun _ => true)
        (fun _ => Except.error ()) (fun _ _ => []) 0 "config" "settings" =
        ([], some SetError.unauthorized) ∧
      @clientSet Unit { apiKey := "k", enforceSecurity := true } false (some "")
        (fun _ => true) (fun _ => Except.error ()) (fun _ _ => []) 0 "config" "settings" =
        ([], some SetError.encryptedTransportRequired) :=
  ⟨(clientSet_refusals { apiKey := "" } true (some "") (fun _ => true)
      (fun _ => Except.error ()) (fun _ _ => []) 0 "config" "settings").1 rfl,
    (clientSet_refusals { apiKey := "k", enforceSecurity := true } false (some "")
      (fun _ => true) (fun _ => Except.error ()) (fun _ _ => []) 0 "config" "settings").2
      (by simp) rfl rfl⟩

/-- The modulus of the 64-bit counter of Go atomic.Uint64. -/
def UINT64MOD : Nat := 18446744073709551616

/-- The big-endian eight-byte encoding of the counter, as written by Go
generateNonce into the first eight nonce bytes (each Go byte conversion
truncates to eight bits). -/
def be64 (n : Nat) : List Nat :=
  [n / 72057594037927936 % 256, n / 281474976710656 % 256, n / 1099511627776 % 256,
    n / 4294967296 % 256, n / 16777216 % 256, n / 65536 % 256, n / 256 % 256, n % 256]

/-- Go EncryptionContext.generateNonce: the counter is incremented once,
wrapping at two to the sixty-fourth; a result of zero aborts with the
nonce-exhausted error; otherwise the nonce is the big-endian counter
followed by the four random bytes drawn by the call, supplied here as a
parameter.  Returns the new counter state and the optional nonce. -/
def generateNonce (ctr : Nat) (rnd : List Nat) : Nat × Option (List Nat) :=
  let counter := (ctr + 1) % UINT64MOD
  if counter = 0 then (counter, none)
  else (counter, some (be64 counter ++ rnd))

/-- Go EncryptionContext.Encrypt: it fails exactly when generateNonce
fails (cipher construction cannot fail on the 32-byte key), and on
success the output is the nonce followed by the sealed bytes, sealing
being a parameter (gcm.Seal appends the tag itself). -/
def encryptOutput (gcmSeal : List Nat → List Nat → List Nat) (plaintext : List Nat)
    (ctr : Nat) (rnd : List Nat) : Nat × Option (List Nat) :=
  match generateNonce ctr rnd with
  | (c, none) => (c, none)
  | (c, some nonce) => (c, some (nonce ++ gcmSeal nonce plaintext))

/-- Counter state of an encryption context after k Encrypt calls from the
initial state s (a fresh Go context starts at zero); every call advances
the counter once, including the call that aborts with nonce exhaustion. -/
def ctrAfter (s : Nat) : Nat → Nat
  | 0 => s
  | k + 1 => (ctrAfter s k + 1) % UINT64MOD

/-- The nonce used by call number k, counting from one, on a context whose
counter started at s, given the four random bytes that call draws; none
when the call aborts with nonce exhaustion. -/
def nonceOfCall (s k : Nat) (rnd : List Nat) : Option (List Nat) :=
  (generateNonce (ctrAfter s (k - 1)) rnd).2

theorem ctrAfter_eq (s : Nat) (hs : s < UINT64MOD) (k : Nat) :
    ctrAfter s k = (s + k) % UINT64MOD := by
  induction k with
  | zero => simp [ctrAfter, Nat.mod_eq_of_lt hs]
  | succ k ih =>
    rw [ctrAfter, ih]
    simp only [UINT64MOD]
    omega

/-- C9 counterexample: on a fresh context, call 1 and call 2^64 + 1 both
succeed and embed the same counter value 1 in the first eight nonce
bytes; with equal random tails the two successful calls use the same
twelve-byte nonce.  (Call 2^64 itself aborts with nonce exhaustion, but
the counter keeps wrapping for later calls.) -/
theorem nonce_reuse_after_wrap :
    nonceOfCall 0 1 [0, 0, 0, 0] = some (be64 1 ++ [0, 0, 0, 0]) ∧
      nonceOfCall 0 (UINT64MOD + 1) [0, 0, 0, 0] = some (be64 1 ++ [0, 0, 0, 0]) ∧
      nonceOfCall 0 UINT64MOD [0, 0, 0, 0] = none ∧
      (1 : Nat) ≠ UINT64MOD + 1 := by
  have hM : 0 < UINT64MOD := by decide
  have e1 : ctrAfter 0 (UINT64MOD + 1 - 1) = 0 := by
    rw [ctrAfter_eq 0 hM]
    simp
  have e2 : ctrAfter 0 (UINT64MOD - 1) = UINT64MOD - 1 := by
    rw [ctrAfter_eq 0 hM]
    have : UINT64MOD - 1 < UINT64MOD := by simp only [UINT64MOD]; omega
    simp only [Nat.zero_add]
    exact Nat.mod_eq_of_lt this
  refine ⟨by decide, ?_, ?_, by decide⟩
  · rw [nonceOfCall, e1]
    decide
  · rw [nonceOfCall, e2]
    rw [generateNonce]
    have : (UINT64MOD - 1 + 1) % UINT64MOD = 0 := by decide
    simp [this]

theorem be64_decode (n : Nat) (h : n < UINT64MOD) :
    (be64 n).foldl (fun a b => a * 256 + b) 0 = n := by
  simp only [be64, List.foldl, UINT64MOD] at *
  omega

theorem be64_inj (i j : Nat) (hi : i < UINT64MOD) (hj : j < UINT64MOD) (hij : i ≠ j) :
    be64 i ≠ be64 j := by
  intro h
  exact hij (by rw [← be64_decode i hi, ← be64_decode j hj, h])

/-- C9 amended: before the counter wraps — among calls 1 to 2^64 − 1 on a
fresh context — every Encrypt call succeeds and embeds a distinct counter
value in the first eight nonce bytes, so no two such calls share a nonce;
the call whose increment wraps the counter to zero, call number 2^64,
aborts with the nonce-exhausted error instead of encrypting; only calls
made after such a wrap (which the aborting call does not prevent) can
repeat counter values. -/
theorem nonce_unique_before_wrap (i j : Nat) (r r2 : List Nat)
    (hi : 1 ≤ i) (hij : i < j) (hj : j < UINT64MOD) :
    nonceOfCall 0 i r = some (be64 i ++ r) ∧
      nonceOfCall 0 j r2 = some (be64 j ++ r2) ∧
      (nonceOfCall 0 i r).map (fun n => n.take 8) ≠
        (nonceOfCall 0 j r2).map (fun n => n.take 8) ∧
      nonceOfCall 0 UINT64MOD r = none := by
  have hM : 0 < UINT64MOD := by decide
  have hi' : i < UINT64MOD := by omega
  have key : ∀ (k : Nat) (rk : List Nat), 1 ≤ k → k < UINT64MOD →
      nonceOfCall 0 k rk = some (be64 k ++ rk) := by
    intro k rk h1 h2
    rw [nonceOfCall, ctrAfter_eq 0 hM]
    have hk : (0 + (k - 1)) % UINT64MOD = k - 1 := by
      simp only [UINT64MOD] at h2 ⊢
      omega
    rw [hk, generateNonce]
    have hk2 : (k - 1 + 1) % UINT64MOD = k := by
      simp only [UINT64MOD] at h2 ⊢
      omega
    simp only [hk2]
    have : ¬ k = 0 := by omega
    simp [this]
  have h1 := key i r hi hi'
  have h2 := key j r2 (by omega) hj
  refine ⟨h1, h2, ?_, ?_⟩
  · rw [h1, h2]
    simp only [Option.map_some', Option.some.injEq]
    have t1 : (be64 i ++ r).take 8 = be64 i := List.take_left (be64 i) r
    have t2 : (be64 j ++ r2).take 8 = be64 j := List.take_left (be64 j) r2
    rw [t1, t2]
    exact fun hc => be64_inj i j hi' hj (by omega) (Option.some.inj hc)
  · rw [nonceOfCall, ctrAfter_eq 0 hM]
    have : (0 + (UINT64MOD - 1)) % UINT64MOD = UINT64MOD - 1 := by decide
    rw [this, generateNonce]
    have hz : (UINT64MOD - 1 + 1) % UINT64MOD = 0 := by decide
    simp [hz]

/-- Witness for nonce_unique_before_wrap at calls one and two with empty
random tails. -/
theorem nonce_unique_before_wrap_witness :
    (1 ≤ 1 ∧ 1 < 2 ∧ 2 < UINT64MOD) ∧
      (nonceOfCall 0 1 [] = some (be64 1 ++ []) ∧
        nonceOfCall 0 2 [] = some (be64 2 ++ []) ∧
        (nonceOfCall 0 1 []).map (fun n => n.take 8) ≠
          (nonceOfCall 0 2 []).map (fun n => n.take 8) ∧
        nonceOfCall 0 UINT64MOD [] = none) :=
  ⟨⟨by decide, by decide, by decide⟩,
    nonce_unique_before_wrap 1 2 [] [] (by decide) (by decide) (by decide)⟩

end ResolveDB
